import Mathlib

/-!
# Verification of myagentwallet key custody and session management

Shallow embedding of the core logic of the `blockrushusa/myagentwallet`
repository, together with theorems settling the specification claims.

The embedding covers:
* `src/utils/wallet.ts` — `WalletManager.encryptPrivateKey` /
  `WalletManager.decryptPrivateKey` (PBKDF2-derived key, AES-CBC with
  PKCS7 padding via CryptoJS);
* `src/utils/walletconnect-real.ts` — `RealWalletConnectManager`
  (two near-identical variants concatenated in the file; they differ only
  in how the default chain string is computed, so the common logic is
  parameterised by that string);
* `src/utils/walletconnect-opensea-fixed.ts` — `OpenSeaWalletConnectManager`;
* `src/utils/walletconnect.ts` — `WalletConnectManager.connectWithUri`.

External collaborators (the AES block cipher, the PBKDF2 key-derivation
function, ethers signing primitives, and the WalletConnect transport) are
out of scope per the design document and are passed in as function
parameters; everything the repository's own code does with their results
(CBC chaining, PKCS7 padding and the CryptoJS-style *non-validating*
unpadding, UTF-8 stringification, namespace construction, request
dispatch, session bookkeeping) is modelled concretely.
-/

namespace MyAgentWallet

/-! ## Byte-level helpers

Bytes are modelled as `Nat` values `< 256`; byte strings as `List Nat`.
-/

/-- Bytewise XOR of two byte strings (`CryptoJS` word-array XOR used by
CBC mode).  Like `List.zipWith`, truncates to the shorter operand. -/
def xorBytes (a b : List Nat) : List Nat :=
  List.zipWith Nat.xor a b

/-- Blockwise splitting worker, structurally recursive on a fuel counter
(instantiated with the list length, which always suffices since each step
consumes at least one element). -/
def chunk16Go : Nat → List Nat → List (List Nat)
  | _, [] => []
  | 0, _ :: _ => []
  | fuel + 1, x :: xs => (x :: xs).take 16 :: chunk16Go fuel (xs.drop 15)

/-- Split a byte string into 16-byte blocks (the AES block size used by
`CryptoJS.AES` in CBC mode). -/
def chunk16 (l : List Nat) : List (List Nat) :=
  chunk16Go l.length l

/-- PKCS7 padding to a multiple of the 16-byte block size
(`CryptoJS.pad.Pkcs7.pad`): append `n` copies of the byte `n`, where
`n = 16 - len % 16` (always between 1 and 16). -/
def pkcs7pad (m : List Nat) : List Nat :=
  let n := 16 - m.length % 16
  m ++ List.replicate n n

/-- PKCS7 unpadding exactly as `CryptoJS.pad.Pkcs7.unpad` performs it:
read the last byte `n` and drop the last `n` bytes, **without validating**
that the dropped bytes actually equal `n` (CryptoJS only does
`data.sigBytes -= nPaddingBytes`).  Natural subtraction models the
clamping of a negative `sigBytes` to an empty result. -/
def pkcs7unpadLoose (m : List Nat) : List Nat :=
  match m.getLast? with
  | none => []
  | some n => m.take (m.length - n)

/-- Is a byte a UTF-8 continuation byte (`10xxxxxx`)? -/
def utf8Cont (b : Nat) : Bool :=
  0x80 ≤ b && b ≤ 0xBF

/-- UTF-8 validity of a byte string.  Models the fact that
`CryptoJS.enc.Utf8.stringify` (called by
`decrypted.toString(CryptoJS.enc.Utf8)`) throws `Malformed UTF-8 data`
exactly when the bytes are not a valid UTF-8 encoding, and otherwise
returns the decoded string.  We keep plaintexts as their UTF-8 byte
encodings, so decoding is the identity on the byte level and only the
validity check matters. -/
def utf8Valid : List Nat → Bool
  | [] => true
  | b :: r =>
    if b ≤ 0x7F then utf8Valid r
    else if 0xC2 ≤ b && b ≤ 0xDF then
      match r with
      | c1 :: r' => utf8Cont c1 && utf8Valid r'
      | [] => false
    else if 0xE0 ≤ b && b ≤ 0xEF then
      match r with
      | c1 :: c2 :: r' => utf8Cont c1 && utf8Cont c2 && utf8Valid r'
      | _ => false
    else if 0xF0 ≤ b && b ≤ 0xF4 then
      match r with
      | c1 :: c2 :: c3 :: r' => utf8Cont c1 && utf8Cont c2 && utf8Cont c3 && utf8Valid r'
      | _ => false
    else false

/-! ## CBC mode

`CryptoJS.AES.encrypt(pt, key, {iv, mode: CBC, padding: Pkcs7})` pads the
plaintext and chains the 16-byte blocks through the AES block cipher.
The block cipher itself is the out-of-scope primitive; it is passed in as
`E` (encryption direction) / `D` (decryption direction), each taking the
derived key and one block. -/

/-- CBC encryption of a block list: `c_i = E key (p_i XOR c_{i-1})`,
seeded with the IV. -/
def cbcEncBlocks (E : List Nat → List Nat → List Nat) (key : List Nat) :
    List Nat → List (List Nat) → List (List Nat)
  | _, [] => []
  | prev, b :: bs =>
    let c := E key (xorBytes b prev)
    c :: cbcEncBlocks E key c bs

/-- CBC decryption of a block list: `p_i = D key c_i XOR c_{i-1}`. -/
def cbcDecBlocks (D : List Nat → List Nat → List Nat) (key : List Nat) :
    List Nat → List (List Nat) → List (List Nat)
  | _, [] => []
  | prev, c :: cs => xorBytes (D key c) prev :: cbcDecBlocks D key c cs

/-! ## `WalletManager.encryptPrivateKey` / `decryptPrivateKey`
(`src/utils/wallet.ts`, lines 54-112)

The TypeScript:

* `encryptPrivateKey(privateKey, password)` draws a random `salt` and
  `iv`, derives a 256-bit key with
  `pbkdf2(sha256, password, salt.toString(), {c: 100000, dkLen: 32})`,
  encrypts with `CryptoJS.AES.encrypt(privateKey, key, {iv, CBC, Pkcs7})`
  and returns `JSON.stringify({salt, iv, encrypted})`.
* `decryptPrivateKey(encryptedData, password)` parses the JSON, re-derives
  the key with the *stored* salt, CBC-decrypts and returns
  `decrypted.toString(CryptoJS.enc.Utf8)`; any exception (malformed UTF-8
  from a wrong key, corrupt JSON) is caught and re-thrown as the single
  error `'Failed to decrypt private key'` (the spec's `DecryptionFailed`).

Externals abstracted as parameters: the key-derivation function `kdf`
(PBKDF2-SHA256, a deterministic function of password and salt string) and
the AES block cipher `E`/`D`.  Randomness (`salt`, `iv`) is passed in
explicitly.  The JSON blob is the `EncBlob` structure; its
serialisation round-trips byte-for-byte per the interface contract and is
not modelled.  The plaintext string is represented by its UTF-8 byte
encoding. -/

/-- The encrypted-blob shape `{ salt, iv, encrypted }` produced by
`encryptPrivateKey`.  `salt` is the hex string `salt.toString()` that is
both stored and fed to PBKDF2; the ciphertext is kept as blocks. -/
structure EncBlob where
  salt : String
  iv : List Nat
  encrypted : List (List Nat)
  deriving Repr, DecidableEq

/-- `WalletManager.encryptPrivateKey` (wallet.ts lines 54-86): derive the
key from the password and fresh salt, CBC-encrypt the PKCS7-padded
plaintext with a fresh IV, return the blob. -/
def encryptPrivateKey (E : List Nat → List Nat → List Nat)
    (kdf : String → String → List Nat)
    (salt : String) (iv : List Nat)
    (privateKey : List Nat) (password : String) : EncBlob :=
  let key := kdf password salt
  { salt := salt
    iv := iv
    encrypted := cbcEncBlocks E key iv (chunk16 (pkcs7pad privateKey)) }

/-- `WalletManager.decryptPrivateKey` (wallet.ts lines 88-112): re-derive
the key from the supplied password and the stored salt, CBC-decrypt,
unpad CryptoJS-style (no validation), and UTF-8-stringify.  `none` models
the thrown `'Failed to decrypt private key'` (raised only when the
unpadded bytes are not valid UTF-8); `some bytes` models a successful
return of the decoded string. -/
def decryptPrivateKey (D : List Nat → List Nat → List Nat)
    (kdf : String → String → List Nat)
    (blob : EncBlob) (password : String) : Option (List Nat) :=
  let key := kdf password blob.salt
  let pt := (cbcDecBlocks D key blob.iv blob.encrypted).flatten
  let unpadded := pkcs7unpadLoose pt
  if utf8Valid unpadded then some unpadded else none

/-! ## Toy instantiations of the external crypto primitives

Used only by closed witness/counterexample theorems, which must evaluate
the pipeline on concrete inputs.  `xorStreamE` is a genuine length-16
block cipher (it is its own inverse), standing in for the out-of-scope
AES permutation; `lenKdf` is a stand-in key-derivation function. -/

/-- A self-inverse toy block cipher: XOR the block with the first 16
bytes of the key (zero-padded).  For 16-byte blocks this is a permutation
and its own inverse. -/
def xorStreamE (key block : List Nat) : List Nat :=
  xorBytes block ((key ++ List.replicate 16 0).take 16)

/-- Identity "block cipher", the simplest permutation. -/
def idCipher (_key block : List Nat) : List Nat := block

/-- Toy key derivation: 32 bytes, each the password length.  Distinct
password lengths give distinct keys. -/
def lenKdf (password : String) (_salt : String) : List Nat :=
  List.replicate 32 password.length

/-! ## Namespace reconciliation (`processSessionProposal`)

`src/utils/walletconnect-real.ts` contains two concatenated variants of
`RealWalletConnectManager`.  Their `processSessionProposal` bodies
(lines 183-331 and 807-955) are identical except for the default-chain
expression: variant 1 uses `this.isTestnet ? 'eip155:11155111' :
'eip155:1'`, variant 2 uses `` `eip155:${this.currentChain?.id || 1}` ``.
The common namespace-building logic (lines 199-289 / 823-913) is
therefore modelled once, parameterised by the `defaultChain` string. -/

/-- One `{ chains?, methods?, events? }` group of a proposal namespace.
Each field may be absent (`undefined`) in the wire payload; the code
guards every access with `|| fallback`. -/
structure ChainMethodSet where
  chains : Option (List String)
  methods : Option (List String)
  events : Option (List String)
  deriving Repr, DecidableEq

/-- A JS object keyed by namespace prefix (`requiredNamespaces` /
`optionalNamespaces`), as an association list in key order. -/
abbrev NamespaceMap := List (String × ChainMethodSet)

/-- One approved namespace entry (`SessionTypes.Namespaces[prefix]`). -/
structure SessionNamespace where
  accounts : List String
  methods : List String
  events : List String
  chains : List String
  deriving Repr, DecidableEq

/-- JS property lookup on an object modelled as an association list. -/
def jsGet {α : Type} (m : List (String × α)) (k : String) : Option α :=
  (m.find? (fun p => p.1 = k)).map (fun p => p.2)

/-- `[...new Set(xs)]`: deduplicate keeping first occurrences
(worker carrying the set of already-seen elements). -/
def jsSetDedupGo (seen : List String) : List String → List String
  | [] => []
  | x :: xs =>
    if seen.contains x then jsSetDedupGo seen xs
    else x :: jsSetDedupGo (x :: seen) xs

/-- `[...new Set(xs)]`: deduplicate keeping first occurrences. -/
def jsSetDedup (xs : List String) : List String :=
  jsSetDedupGo [] xs

/-- The account template literal `` `${chain}:${this.wallet.address}` ``. -/
def acct (address chain : String) : String :=
  chain ++ ":" ++ address

/-- Variant 1 default chain (walletconnect-real.ts lines 203, 228, 253,
282): `this.isTestnet ? 'eip155:11155111' : 'eip155:1'`. -/
def defaultChainOfTestnet (isTestnet : Bool) : String :=
  if isTestnet then "eip155:11155111" else "eip155:1"

/-- Variant 2 default chain (walletconnect-real.ts lines 827, 852, 877,
906): `` `eip155:${this.currentChain?.id || 1}` `` — both a missing
`currentChain` and (vacuously) a falsy id `0` fall back to `1`. -/
def defaultChainOfCurrent (currentChainId : Option Nat) : String :=
  "eip155:" ++ toString (match currentChainId with
    | none => 1
    | some i => if i = 0 then 1 else i)

/-- The permissive method list installed by the empty-proposal fallback
("OpenSea sometimes sends empty namespaces", lines 256-274 / 880-898). -/
def openSeaFallbackMethods : List String :=
  ["eth_sendTransaction", "eth_signTransaction", "eth_sign", "personal_sign",
   "eth_signTypedData", "eth_signTypedData_v4", "eth_accounts",
   "eth_requestAccounts", "eth_chainId", "wallet_switchEthereumChain",
   "wallet_addEthereumChain", "eth_getBalance", "eth_getTransactionCount",
   "eth_gasPrice", "eth_estimateGas", "net_version", "wallet_getCapabilities"]

/-- The namespace entry installed by the empty-proposal fallback
(lines 254-277 / 878-901). -/
def openSeaFallbackNs (defaultChain address : String) : SessionNamespace :=
  { accounts := [acct address defaultChain]
    methods := openSeaFallbackMethods
    events := ["chainChanged", "accountsChanged"]
    chains := [defaultChain] }

/-- The namespace entry installed by the final "if still no namespaces"
fallback (lines 281-289 / 905-913). -/
def lastResortNs (defaultChain address : String) : SessionNamespace :=
  { accounts := [acct address defaultChain]
    methods := ["eth_sendTransaction", "personal_sign", "eth_sign",
                "eth_signTypedData", "eth_signTypedData_v4"]
    events := ["chainChanged", "accountsChanged"]
    chains := [defaultChain] }

/-- The namespace-construction portion of `processSessionProposal`
(walletconnect-real.ts lines 199-289, identically lines 823-913), as run
just before `signClient.approve({id, namespaces})`:

1. if `requiredNamespaces.eip155` exists, build the entry from its
   chains/methods/events (`|| fallback` for each absent field), one
   account per chain;
2. if `optionalNamespaces?.eip155` exists: create the entry from the
   optional sets when step 1 produced nothing, otherwise append accounts
   for optional chains whose account string is not already present —
   and only if at least one such account exists, also union (via
   `new Set`) the methods, events and chains;
3. if both `requiredNamespaces` and `optionalNamespaces` are empty
   objects (or `optionalNamespaces` is undefined), overwrite with the
   permissive OpenSea-compatibility default;
4. if the object is still empty, install the last-resort default.

Only the `eip155` key is ever consulted or written: required or optional
namespaces under any other prefix are ignored entirely. -/
def buildApprovedNamespaces (defaultChain address : String)
    (required : NamespaceMap) (optional : Option NamespaceMap) :
    List (String × SessionNamespace) :=
  -- step 1: required eip155
  let ns1 : List (String × SessionNamespace) :=
    match jsGet required "eip155" with
    | some req =>
      let chains := req.chains.getD [defaultChain]
      let methods := req.methods.getD []
      let events := req.events.getD []
      let accounts := chains.map (acct address)
      [("eip155", ⟨accounts, methods, events, chains⟩)]
    | none => []
  -- step 2: optional eip155
  let ns2 : List (String × SessionNamespace) :=
    match optional.bind (fun o => jsGet o "eip155") with
    | some opt =>
      let optionalChains := opt.chains.getD []
      let optionalMethods := opt.methods.getD []
      let optionalEvents := opt.events.getD []
      match jsGet ns1 "eip155" with
      | none =>
        let accounts := optionalChains.map (acct address)
        [("eip155",
          { accounts := if accounts.isEmpty then [acct address defaultChain] else accounts
            methods := optionalMethods
            events := optionalEvents
            chains := if optionalChains.isEmpty then [defaultChain] else optionalChains })]
      | some cur =>
        let additionalAccounts :=
          (optionalChains.filter
            (fun c => !(cur.accounts.contains (acct address c)))).map (acct address)
        if additionalAccounts.isEmpty then ns1
        else
          [("eip155",
            { accounts := cur.accounts ++ additionalAccounts
              methods := jsSetDedup (cur.methods ++ optionalMethods)
              events := jsSetDedup (cur.events ++ optionalEvents)
              chains := jsSetDedup (cur.chains ++ optionalChains) })]
    | none => ns1
  -- step 3: empty-proposal fallback
  let ns3 : List (String × SessionNamespace) :=
    if required.isEmpty &&
        (match optional with
         | none => true
         | some o => o.isEmpty) then
      [("eip155", openSeaFallbackNs defaultChain address)]
    else ns2
  -- step 4: last-resort default
  if ns3.isEmpty then [("eip155", lastResortNs defaultChain address)] else ns3

/-! ## Session-request dispatch

Two handlers are modelled:

* `RealWalletConnectManager.handleSessionRequest`
  (walletconnect-real.ts, variant 1, lines 333-533);
* `OpenSeaWalletConnectManager.onSessionRequest`
  (walletconnect-opensea-fixed.ts, lines 204-371).

Request parameters are JSON values; every parameter the modelled code
actually consumes is a string (messages, addresses, and the opaque
transaction / typed-data payloads, which are only passed through to the
ethers wallet), so `params` is a `List String` and a missing index models
`undefined`.  The ethers signing primitives are abstracted as parameters:
`signMessage`, `signTransaction`, `signTypedData` (each a pure function
of the payload for the fixed in-memory key) and, for the OpenSea variant,
`sendTransaction`, which submits to the network and returns the
transaction hash.  Where the TypeScript would throw on an `undefined`
parameter (e.g. `ethers` rejecting `signMessage(undefined)`, or a
property access on `undefined`), the model returns `Except.error`. -/

/-- An inbound JSON-RPC request (`params.request`). -/
structure RpcRequest where
  method : String
  params : List String
  deriving Repr, DecidableEq

/-- The result values the handlers produce. -/
inductive RpcValue where
  /-- `null` -/
  | nul
  /-- a string result (signatures, hex quantities, tx hashes) -/
  | str (s : String)
  /-- a string-array result (`[this.wallet.address]`) -/
  | strList (ss : List String)
  /-- the `wallet_getCapabilities` object `{ [account]: {...supported: false} }` -/
  | capabilities (account : String)
  deriving Repr, DecidableEq

/-- One JSON-RPC response: success with a result, or an error object. -/
inductive RpcResponse where
  | success (v : RpcValue)
  | error (code : Int) (message : String)
  deriving Repr, DecidableEq

/-- What the handler as a whole does with a request. -/
inductive HandlerOutcome where
  /-- exactly one response was sent for the request id -/
  | responded (r : RpcResponse)
  /-- the handler itself threw; no response was ever sent -/
  | crashed
  deriving Repr, DecidableEq

/-- JS truthiness of a possibly-absent string parameter: `undefined` and
`''` are falsy, every other string truthy. -/
def jsTruthyStr (o : Option String) : Bool :=
  match o with
  | none => false
  | some s => s ≠ ""

/-- `Char` lowering for ASCII letters (all that appears in the hex
addresses this check is applied to). -/
def jsCharToLower (c : Char) : Char :=
  if 'A' ≤ c && c ≤ 'Z' then Char.ofNat (c.toNat + 32) else c

/-- JS `String.prototype.toLowerCase`, restricted to its ASCII action. -/
def jsToLower (s : String) : String :=
  ⟨s.data.map jsCharToLower⟩

/-- The `switch (request.method)` body of
`RealWalletConnectManager.handleSessionRequest` (variant 1, lines
371-485).  `Except.error` models a `throw` escaping the `switch` into the
outer `catch`.  Faithful details: the address check on `personal_sign` /
`eth_sign` fires only when the address parameter is truthy and differs
case-insensitively from the wallet address (lines 386-388, 399-401);
`eth_sendTransaction` and `eth_signTransaction` share one case that only
calls `this.wallet.signTransaction` — nothing is ever submitted to the
network (lines 406-410); the `default` case logs
`Unsupported method: ..., returning null` and sets `result = null`
(lines 482-484). -/
def realDispatch (isTestnet : Bool) (walletAddress : String)
    (signMessage signTransaction signTypedData : String → String)
    (req : RpcRequest) : Except String RpcValue :=
  if req.method = "eth_accounts" then .ok (.strList [walletAddress])
  else if req.method = "eth_requestAccounts" then .ok (.strList [walletAddress])
  else if req.method = "personal_sign" then
    -- personal_sign params: [message, address]
    let message := req.params.get? 0
    let signerAddress := req.params.get? 1
    if jsTruthyStr signerAddress &&
        (jsToLower (signerAddress.getD "") != jsToLower walletAddress) then
      .error "Address mismatch"
    else
      match message with
      | some m => .ok (.str (signMessage m))
      | none => .error "invalid message payload"
  else if req.method = "eth_sign" then
    -- eth_sign params: [address, data]
    let signAddress := req.params.get? 0
    let data := req.params.get? 1
    if jsTruthyStr signAddress &&
        (jsToLower (signAddress.getD "") != jsToLower walletAddress) then
      .error "Address mismatch"
    else
      match data with
      | some d => .ok (.str (signMessage d))
      | none => .error "invalid message payload"
  else if req.method = "eth_sendTransaction" || req.method = "eth_signTransaction" then
    match req.params.get? 0 with
    | some tx => .ok (.str (signTransaction tx))
    | none => .error "invalid transaction payload"
  else if req.method = "eth_signTypedData" || req.method = "eth_signTypedData_v4" then
    match req.params.get? 1 with
    | some td => .ok (.str (signTypedData td))
    | none => .error "invalid typed data payload"
  else if req.method = "wallet_getCapabilities" then
    match req.params.get? 0 with
    | some a => .ok (.capabilities (jsToLower a))
    | none => .error "cannot read properties of undefined"
  else if req.method = "eth_chainId" then
    .ok (.str (if isTestnet then "0xaa36a7" else "0x1"))
  else if req.method = "net_version" then
    .ok (.str (if isTestnet then "11155111" else "1"))
  else if req.method = "wallet_switchEthereumChain" then
    match req.params.get? 0 with
    | some _ => .ok .nul
    | none => .error "cannot read properties of undefined"
  else if req.method = "eth_getBalance" then .ok (.str "0x0")
  else if req.method = "eth_getTransactionCount" then .ok (.str "0x0")
  else if req.method = "wallet_addEthereumChain" then .ok .nul
  else if req.method = "eth_gasPrice" then .ok (.str "0x9184e72a000")
  else if req.method = "eth_estimateGas" then .ok (.str "0x5208")
  else .ok .nul

/-- The method names with their own `case` label in variant 1 of
`handleSessionRequest`; everything else falls to `default`. -/
def realHandledMethods : List String :=
  ["eth_accounts", "eth_requestAccounts", "personal_sign", "eth_sign",
   "eth_sendTransaction", "eth_signTransaction", "eth_signTypedData",
   "eth_signTypedData_v4", "wallet_getCapabilities", "eth_chainId",
   "net_version", "wallet_switchEthereumChain", "eth_getBalance",
   "eth_getTransactionCount", "wallet_addEthereumChain", "eth_gasPrice",
   "eth_estimateGas"]

/-- The method names with their own `case` label in
`OpenSeaWalletConnectManager.onSessionRequest`; everything else falls to
the throwing `default`. -/
def openSeaHandledMethods : List String :=
  ["eth_accounts", "eth_requestAccounts", "personal_sign", "eth_sign",
   "eth_signTypedData", "eth_signTypedData_v3", "eth_signTypedData_v4",
   "eth_sendTransaction", "eth_chainId", "net_version",
   "wallet_switchEthereumChain", "wallet_addEthereumChain",
   "wallet_getCapabilities", "eth_getBalance", "eth_getTransactionCount",
   "eth_gasPrice", "eth_estimateGas"]

/-- `handleSessionRequest` as observed by the peer (variant 1, lines
333-533), assuming SignClient and wallet are initialised and the
transport `respond` succeeds: a successful dispatch is answered with
`{id, result}`, and any error thrown during dispatch is caught at line
516 and answered with the fixed error `{code: -32601, message: 'Method
not found'}` (lines 519-531) — the thrown message is never forwarded. -/
def realHandleSessionRequest (isTestnet : Bool) (walletAddress : String)
    (signMessage signTransaction signTypedData : String → String)
    (req : RpcRequest) : HandlerOutcome :=
  match realDispatch isTestnet walletAddress signMessage signTransaction signTypedData req with
  | .ok v => .responded (.success v)
  | .error _ => .responded (.error (-32601) "Method not found")

/-- Is `p` an initial segment of `l`? -/
def charListHasPre : List Char → List Char → Bool
  | [], _ => true
  | _ :: _, [] => false
  | p :: ps, x :: xs => p = x && charListHasPre ps xs

/-- Does `l` contain `sub` as a contiguous segment? -/
def charListHasSub (sub : List Char) : List Char → Bool
  | [] => sub.isEmpty
  | x :: xs => charListHasPre sub (x :: xs) || charListHasSub sub xs

/-- JS `String.prototype.includes`. -/
def strIncludes (s sub : String) : Bool :=
  charListHasSub sub.data s.data

/-- JS `String.prototype.startsWith`. -/
def jsStartsWith (s pre : String) : Bool :=
  charListHasPre pre.data s.data

/-- The parameter normalisation of the OpenSea `personal_sign` case
(walletconnect-opensea-fixed.ts lines 223-255): swap the first two
parameters when the first looks like an address (`0x`-prefixed, length
42); then, for `0x`-prefixed messages, hex-decode
(`Buffer.from(hex).toString('utf8')`, abstracted as the total function
`hexToUtf8`) and sign the decoded text instead — but only when the
decoded text contains the SIWE marker.  Returns the message that will be
passed to `signMessage`, or `none` when it is `undefined` (which makes
`signMessage` throw). -/
def openSeaPersonalSignMessage (hexToUtf8 : String → String)
    (p0 p1 : Option String) : Option String :=
  let swap := jsTruthyStr p0 && jsStartsWith (p0.getD "") "0x" &&
    ((p0.getD "").length = 42 : Bool)
  let message := if swap then p1 else p0
  match message with
  | none => none
  | some m =>
    if jsStartsWith m "0x" then
      let decoded := hexToUtf8 (m.drop 2)
      if strIncludes decoded "wants you to sign in with your Ethereum account" then
        some decoded
      else some m
    else some m

/-- The `switch (request.method)` body of
`OpenSeaWalletConnectManager.onSessionRequest` (lines 217-332).
Faithful details: `personal_sign` performs **no** address check — it
normalises the parameters and signs unconditionally (lines 223-258);
`eth_sign` signs `params[1]` with no check (lines 260-262);
`eth_sendTransaction` calls `this.wallet.sendTransaction(tx)` and returns
`sentTx.hash` (lines 281-285); there is no `eth_signTransaction` case;
the `default` case throws `Unsupported method: ...` (lines 330-331). -/
def openSeaDispatch (walletAddress : String)
    (signMessage signTypedData sendTransactionHash : String → String)
    (hexToUtf8 : String → String)
    (req : RpcRequest) : Except String RpcValue :=
  if req.method = "eth_accounts" || req.method = "eth_requestAccounts" then
    .ok (.strList [walletAddress])
  else if req.method = "personal_sign" then
    match openSeaPersonalSignMessage hexToUtf8 (req.params.get? 0) (req.params.get? 1) with
    | some m => .ok (.str (signMessage m))
    | none => .error "invalid message payload"
  else if req.method = "eth_sign" then
    match req.params.get? 1 with
    | some d => .ok (.str (signMessage d))
    | none => .error "invalid message payload"
  else if req.method = "eth_signTypedData" || req.method = "eth_signTypedData_v3" ||
      req.method = "eth_signTypedData_v4" then
    match req.params.get? 1 with
    | some td => .ok (.str (signTypedData td))
    | none => .error "invalid typed data payload"
  else if req.method = "eth_sendTransaction" then
    match req.params.get? 0 with
    | some tx => .ok (.str (sendTransactionHash tx))
    | none => .error "invalid transaction payload"
  else if req.method = "eth_chainId" then .ok (.str "0x1")
  else if req.method = "net_version" then .ok (.str "1")
  else if req.method = "wallet_switchEthereumChain" then .ok .nul
  else if req.method = "wallet_addEthereumChain" then .ok .nul
  else if req.method = "wallet_getCapabilities" then
    -- `{[request.params[0]]: ...}`: an undefined key is coerced to "undefined"
    .ok (.capabilities ((req.params.get? 0).getD "undefined"))
  else if req.method = "eth_getBalance" then .ok (.str "0x0")
  else if req.method = "eth_getTransactionCount" then .ok (.str "0x0")
  else if req.method = "eth_gasPrice" then .ok (.str "0x3b9aca00")
  else if req.method = "eth_estimateGas" then .ok (.str "0x5208")
  else .error ("Unsupported method: " ++ req.method)

/-- `onSessionRequest` as observed by the peer (lines 204-371): a
successful dispatch is answered with `{id, result}`.  When the dispatch
throws, the `catch` block (lines 346-370) first evaluates
`console.error('Method:', request.method)` — but `request` is a `const`
declared *inside* the `try` block (line 211) and is not in scope in the
`catch`, so that line itself throws a `ReferenceError` and the
`respondSessionRequest` error response at line 355 is never reached: the
peer gets **no** response and the handler's promise rejects. -/
def openSeaOnSessionRequest (walletAddress : String)
    (signMessage signTypedData sendTransactionHash : String → String)
    (hexToUtf8 : String → String)
    (req : RpcRequest) : HandlerOutcome :=
  match openSeaDispatch walletAddress signMessage signTypedData
      sendTransactionHash hexToUtf8 req with
  | .ok v => .responded (.success v)
  | .error _ => .crashed


/-! ## Manager state: pending proposals and the sessions map

JS `Map`s are modelled as association lists in insertion order:
`Map.set` replaces in place or appends, `Map.delete` removes,
`Map.values()` lists the values in order. -/

/-- `Map.prototype.has`. -/
def jsMapHas {k : Type} [DecidableEq k] {a : Type} (m : List (k × a)) (key : k) : Bool :=
  m.any (fun p => p.1 = key)

/-- `Map.prototype.get`. -/
def jsMapGet {k : Type} [DecidableEq k] {a : Type} (m : List (k × a)) (key : k) : Option a :=
  (m.find? (fun p => p.1 = key)).map (fun p => p.2)

/-- `Map.prototype.set`: update in place if the key exists, else append. -/
def jsMapSet {k : Type} [DecidableEq k] {a : Type} (m : List (k × a)) (key : k) (v : a) :
    List (k × a) :=
  if jsMapHas m key then m.map (fun p => if p.1 = key then (key, v) else p)
  else m ++ [(key, v)]

/-- `Map.prototype.delete`. -/
def jsMapDelete {k : Type} [DecidableEq k] {a : Type} (m : List (k × a)) (key : k) :
    List (k × a) :=
  m.filter (fun p => !(p.1 = key : Bool))

/-- `Map.prototype.values()` as a list (what
`Array.from(this.sessions.values())` returns). -/
def jsMapValues {k a : Type} (m : List (k × a)) : List a :=
  m.map (fun p => p.2)

/-- `proposer.metadata` / `session.peer.metadata`. -/
structure PeerMeta where
  name : String
  description : String
  url : String
  icons : List String
  deriving Repr, DecidableEq

/-- The `WalletConnectSession` interface shared by all manager variants:
`{ topic, peerMetadata }`. -/
structure WalletConnectSession where
  topic : String
  peerMetadata : PeerMeta
  deriving Repr, DecidableEq

/-- A stored `session_proposal` event: its id and the parts of `params`
the managers consume. -/
structure SessionProposalEvent where
  id : Nat
  proposerMetadata : PeerMeta
  requiredNamespaces : NamespaceMap
  optionalNamespaces : Option NamespaceMap
  deriving Repr, DecidableEq

/-- The mutable state of `RealWalletConnectManager` relevant to proposal
approval: `pendingProposals : Map<number, event>` and
`sessions : Map<string, WalletConnectSession>`. -/
structure RealManagerState where
  pendingProposals : List (Nat × SessionProposalEvent)
  sessions : List (String × WalletConnectSession)
  deriving Repr, DecidableEq

/-- What `approveProposal` did. -/
inductive ApproveOutcome where
  /-- the id was not in `pendingProposals`: the method logs
  `No pending proposal found for ID:` and just returns (lines 40-43) -/
  | notFoundNoop
  /-- `signClient.approve` succeeded: a session was stored under the
  returned topic and the proposal deleted -/
  | approved (topic : String)
  /-- `signClient.approve` threw: `processSessionProposal` caught it,
  attempted a best-effort `reject`, and returned; `approveProposal`
  still deletes the proposal -/
  | approveFailedRejected
  deriving Repr, DecidableEq

/-- `RealWalletConnectManager.approveProposal` (variant 1, lines 38-52)
together with the `processSessionProposal` it calls (lines 183-331),
assuming SignClient and wallet are initialised.  The transport primitive
`signClient.approve({id, namespaces})` is abstracted as `approveTx`,
returning the acknowledged session topic or an error.

Control flow from the source: an unknown id is logged and the method
returns without throwing and without touching any state;
otherwise the namespaces are built and `signClient.approve` is called;
on success the session is stored under the returned topic (lines
293-302); on failure `processSessionProposal` catches the error and
best-effort rejects (lines 312-330) — it does **not** re-throw, so
`approveProposal` always reaches `this.pendingProposals.delete(proposalId)`
(line 47). -/
def approveProposal
    (approveTx : List (String × SessionNamespace) → Except String String)
    (defaultChain address : String)
    (proposalId : Nat) (st : RealManagerState) :
    ApproveOutcome × RealManagerState :=
  match jsMapGet st.pendingProposals proposalId with
  | none => (.notFoundNoop, st)
  | some ev =>
    let namespaces := buildApprovedNamespaces defaultChain address
      ev.requiredNamespaces ev.optionalNamespaces
    match approveTx namespaces with
    | .ok topic =>
      (.approved topic,
       { pendingProposals := jsMapDelete st.pendingProposals proposalId
         sessions := jsMapSet st.sessions topic ⟨topic, ev.proposerMetadata⟩ })
    | .error _ =>
      (.approveFailedRejected,
       { pendingProposals := jsMapDelete st.pendingProposals proposalId
         sessions := st.sessions })

/-- A session record held by the transport (`signClient.session.getAll()`
elements): just the fields the managers read. -/
structure TransportSession where
  topic : String
  peerMetadata : PeerMeta
  deriving Repr, DecidableEq

/-- Every write/delete the manager variants perform on their `sessions`
map, across `walletconnect.ts`, `walletconnect-real.ts` and
`walletconnect-opensea-fixed.ts`. -/
inductive SessionOp where
  /-- `WalletConnectManager.connectWithUri` (walletconnect.ts lines
  52-121): validate the `wc:`/`@` shape of the URI, parse the topic,
  store a session under it with fixed Uniswap placeholder metadata -/
  | connectUri (uri : String)
  /-- storing an approved session under the transport-returned topic:
  walletconnect-real.ts lines 296-302 / 922-926 and
  walletconnect-opensea-fixed.ts lines 166-172 -/
  | storeApproved (topic : String) (meta : PeerMeta)
  /-- the cache-refill in `handleSessionRequest` (walletconnect-real.ts
  lines 347-367): if the topic is unknown, look it up among the
  transport's sessions and cache it when found -/
  | cacheFill (topic : String) (transport : List TransportSession)
  /-- the sync loop in `getSessions` (walletconnect-real.ts lines
  565-585): add every transport session whose topic is not yet cached -/
  | syncSessions (transport : List TransportSession)
  /-- the restore loop in `initialize` (walletconnect-real.ts lines
  91-104): unconditionally store every transport session -/
  | restoreAll (transport : List TransportSession)
  /-- `session_delete` / `session_expire` handlers and
  `disconnectSession` (walletconnect-real.ts lines 130-133, 146-149,
  597-611; walletconnect-opensea-fixed.ts lines 91-95, 404-420;
  walletconnect.ts lines 127-137) -/
  | sessionDelete (topic : String)

/-- The fixed placeholder metadata stored by
`WalletConnectManager.connectWithUri` (walletconnect.ts lines 100-108). -/
def uniswapMeta : PeerMeta :=
  { name := "Uniswap Interface"
    description := "Swap, earn, and build on the leading decentralized crypto trading protocol"
    url := "https://app.uniswap.org"
    icons := ["https://app.uniswap.org/favicon.ico"] }

/-- Apply one `SessionOp` to a sessions map, as the corresponding source
code does. -/
def applySessionOp (m : List (String × WalletConnectSession)) :
    SessionOp → List (String × WalletConnectSession)
  | .connectUri uri =>
    -- lines 57-67: throw unless the URI starts with 'wc:' and has exactly
    -- one '@'; the topic is the first part with the leading 'wc:' removed
    if jsStartsWith uri "wc:" && ((uri.splitOn "@").length = 2 : Bool) then
      let topic := ((uri.splitOn "@").headD "").drop 3
      jsMapSet m topic ⟨topic, uniswapMeta⟩
    else m
  | .storeApproved topic meta => jsMapSet m topic ⟨topic, meta⟩
  | .cacheFill topic transport =>
    if jsMapHas m topic then m
    else
      match transport.find? (fun s => s.topic = topic) with
      | some s => jsMapSet m topic ⟨s.topic, s.peerMetadata⟩
      | none => m
  | .syncSessions transport =>
    transport.foldl
      (fun acc s =>
        if jsMapHas acc s.topic then acc
        else jsMapSet acc s.topic ⟨s.topic, s.peerMetadata⟩) m
  | .restoreAll transport =>
    transport.foldl (fun acc s => jsMapSet acc s.topic ⟨s.topic, s.peerMetadata⟩) m
  | .sessionDelete topic => jsMapDelete m topic

/-- The claimed invariant: every entry of the sessions map is stored
under its own topic. -/
def SessionsKeyedByTopic (m : List (String × WalletConnectSession)) : Prop :=
  ∀ p ∈ m, (p.2).topic = p.1


/-! ## Round-trip lemmas for the crypto layer -/

theorem length_xorBytes (a b : List Nat) :
    (xorBytes a b).length = min a.length b.length := by
  simp [xorBytes]

/-- XOR-ing twice with the same mask is the identity (when the mask is at
least as long as the data, so `zipWith` does not truncate). -/
theorem xorBytes_xorBytes_cancel (a b : List Nat) (h : a.length ≤ b.length) :
    xorBytes (xorBytes a b) b = a := by
  induction a generalizing b with
  | nil => simp [xorBytes]
  | cons x xs ih =>
    cases b with
    | nil => simp at h
    | cons y ys =>
      simp only [List.length_cons, Nat.succ_le_succ_iff] at h
      simp only [xorBytes, List.zipWith_cons_cons, List.cons.injEq]
      exact ⟨Nat.xor_cancel_right y x, ih ys h⟩

/-- CBC decryption inverts CBC encryption, given that the block cipher's
decryption direction inverts its encryption direction on 16-byte blocks
and that the cipher is length-preserving. -/
theorem cbcDecBlocks_cbcEncBlocks
    (E D : List Nat → List Nat → List Nat) (key : List Nat)
    (hE : ∀ b, b.length = 16 → (E key b).length = 16)
    (hD : ∀ b, b.length = 16 → D key (E key b) = b)
    (bs : List (List Nat)) (prev : List Nat)
    (hprev : prev.length = 16) (hbs : ∀ b ∈ bs, b.length = 16) :
    cbcDecBlocks D key prev (cbcEncBlocks E key prev bs) = bs := by
  induction bs generalizing prev with
  | nil => rfl
  | cons b rest ih =>
    have hb : b.length = 16 := hbs b (List.mem_cons_self b rest)
    have hx : (xorBytes b prev).length = 16 := by
      rw [length_xorBytes, hb, hprev]; simp
    simp only [cbcEncBlocks, cbcDecBlocks, hD _ hx]
    rw [xorBytes_xorBytes_cancel b prev (by rw [hb, hprev])]
    exact congrArg (b :: ·)
      (ih (E key (xorBytes b prev)) (hE _ hx) fun x hm => hbs x (List.mem_cons_of_mem b hm))

/-- Re-joining the 16-byte chunks gives back the original byte string. -/
theorem chunk16Go_flatten (fuel : Nat) (l : List Nat) (h : l.length ≤ fuel) :
    (chunk16Go fuel l).flatten = l := by
  induction fuel generalizing l with
  | zero =>
    cases l with
    | nil => rfl
    | cons x xs => simp at h
  | succ fuel ih =>
    cases l with
    | nil => rfl
    | cons x xs =>
      rw [chunk16Go, List.flatten_cons, ih]
      · have : xs.drop 15 = (x :: xs).drop 16 := rfl
        rw [this]
        exact List.take_append_drop 16 (x :: xs)
      · simp only [List.length_drop]
        simp only [List.length_cons] at h
        omega

theorem chunk16_flatten (l : List Nat) : (chunk16 l).flatten = l :=
  chunk16Go_flatten l.length l le_rfl

/-- Every chunk of a byte string whose length is a positive multiple of 16
has length exactly 16. -/
theorem chunk16Go_length_eq (fuel : Nat) (l : List Nat) (hf : l.length ≤ fuel) :
    16 ∣ l.length → ∀ b ∈ chunk16Go fuel l, b.length = 16 := by
  induction fuel generalizing l with
  | zero =>
    intro _ b hb
    cases l with
    | nil => simp [chunk16Go] at hb
    | cons x xs => simp at hf
  | succ fuel ih =>
    intro h b hb
    cases l with
    | nil => simp [chunk16Go] at hb
    | cons x xs =>
      rw [chunk16Go] at hb
      rcases List.mem_cons.mp hb with hb | hb
      · subst hb
        rcases h with ⟨k, hk⟩
        simp only [List.length_cons] at hk
        simp only [List.length_take, List.length_cons]
        omega
      · simp only [List.length_cons] at hf h
        refine ih (xs.drop 15) ?_ ?_ b hb
        · simp only [List.length_drop]; omega
        · rcases h with ⟨k, hk⟩
          simp only [List.length_drop]
          exact ⟨k - 1, by omega⟩

theorem chunk16_length_eq (l : List Nat) :
    16 ∣ l.length → ∀ b ∈ chunk16 l, b.length = 16 :=
  chunk16Go_length_eq l.length l le_rfl

/-- The padded plaintext has length a multiple of 16. -/
theorem pkcs7pad_length_dvd (m : List Nat) : 16 ∣ (pkcs7pad m).length := by
  simp only [pkcs7pad, List.length_append, List.length_replicate]
  have h := Nat.mod_lt m.length (show 0 < 16 by norm_num)
  have h2 := Nat.mod_add_div m.length 16
  exact ⟨m.length / 16 + 1, by omega⟩

/-- The last element of a non-empty replicated list. -/
theorem getLast?_replicate_pos (n a : Nat) (h : 0 < n) :
    (List.replicate n a).getLast? = some a := by
  cases n with
  | zero => omega
  | succ k => rw [List.replicate_succ', List.getLast?_concat]

/-- CryptoJS-style loose unpadding inverts PKCS7 padding. -/
theorem pkcs7unpadLoose_pkcs7pad (m : List Nat) :
    pkcs7unpadLoose (pkcs7pad m) = m := by
  have hpad : pkcs7pad m
      = m ++ List.replicate (16 - m.length % 16) (16 - m.length % 16) := rfl
  have hn : 0 < 16 - m.length % 16 := by
    have := Nat.mod_lt m.length (show 0 < 16 by norm_num)
    omega
  have hlast : (pkcs7pad m).getLast? = some (16 - m.length % 16) := by
    rw [hpad, List.getLast?_append_of_ne_nil _
      (by simp only [ne_eq, List.replicate_eq_nil_iff]; omega)]
    exact getLast?_replicate_pos _ _ hn
  have hlen : (pkcs7pad m).length = m.length + (16 - m.length % 16) := by
    rw [hpad]; simp
  simp only [pkcs7unpadLoose]
  rw [hlast]
  show List.take ((pkcs7pad m).length - (16 - m.length % 16)) (pkcs7pad m) = m
  rw [hlen, Nat.add_sub_cancel, hpad]
  exact List.take_left m _

/-! ## Claim C1: encrypt/decrypt round trip -/

/-- **C1.**  For every secret `S` (the UTF-8 byte encoding of the
private-key string) and every password `P`, decrypting the blob produced
by `encryptPrivateKey S P` with the same password returns exactly `S`.
Quantified over every key-derivation function and every block cipher
`E`/`D` that is a length-preserving inverse pair on 16-byte blocks (the
contract of the out-of-scope AES primitive), every salt and every
16-byte IV. -/
theorem C1_encrypt_decrypt_roundtrip
    (E D : List Nat → List Nat → List Nat)
    (kdf : String → String → List Nat)
    (hE : ∀ k b, b.length = 16 → (E k b).length = 16)
    (hD : ∀ k b, b.length = 16 → D k (E k b) = b)
    (S : List Nat) (P salt : String) (iv : List Nat)
    (hiv : iv.length = 16) (hS : utf8Valid S = true) :
    decryptPrivateKey D kdf (encryptPrivateKey E kdf salt iv S P) P = some S := by
  simp only [decryptPrivateKey, encryptPrivateKey]
  rw [cbcDecBlocks_cbcEncBlocks E D (kdf P salt) (hE (kdf P salt)) (hD (kdf P salt))
    (chunk16 (pkcs7pad S)) iv hiv (chunk16_length_eq _ (pkcs7pad_length_dvd S))]
  rw [chunk16_flatten, pkcs7unpadLoose_pkcs7pad, hS]
  rfl

/-- Witness for C1 at concrete inputs: the identity block cipher, the
toy KDF, secret bytes `"0xab"`, password `"pw"`, an all-zero IV. -/
theorem C1_encrypt_decrypt_roundtrip_witness :
    decryptPrivateKey idCipher lenKdf
      (encryptPrivateKey idCipher lenKdf "salthex" (List.replicate 16 0)
        [48, 120, 97, 98] "pw") "pw" = some [48, 120, 97, 98] :=
  C1_encrypt_decrypt_roundtrip idCipher idCipher lenKdf
    (fun _ _ h => h) (fun _ _ _ => rfl)
    [48, 120, 97, 98] "pw" "salthex" (List.replicate 16 0)
    (by decide) (by decide)

/-! ## Claim C2: decryption under a wrong password -/

/-- **C2 (code bug).**  The claim says that decrypting with a wrong
password always fails with `DecryptionFailed` and never completes
successfully with a wrong (or empty) secret.  The code has no integrity
check: `CryptoJS.AES.decrypt` in CBC mode with the CryptoJS `Pkcs7`
unpad (which does not validate the padding bytes) produces garbage
plaintext under a wrong key, and `decryptPrivateKey` returns it
*successfully* whenever that garbage happens to be valid UTF-8 after
unpadding — the `DecryptionFailed` throw only fires on malformed UTF-8.

Concretely, instantiating the out-of-scope block cipher with the
self-inverse XOR-keystream cipher `xorStreamE` (a genuine 16-byte block
cipher, see `xorStreamE_selfInverse`) and the KDF with `lenKdf`:
encrypting the 15-byte secret `'A' * 15` under password `"a"` and
decrypting under the different password `"bb"` *succeeds*, returning the
wrong 14-byte secret `'B' * 14`. -/
theorem C2_wrong_password_returns_wrong_secret :
    decryptPrivateKey xorStreamE lenKdf
      (encryptPrivateKey xorStreamE lenKdf "salthex" (List.replicate 16 0)
        (List.replicate 15 65) "a") "bb"
      = some (List.replicate 14 66) ∧
    ("a" : String) ≠ "bb" ∧
    (List.replicate 14 66 : List Nat) ≠ List.replicate 15 65 ∧
    (List.replicate 14 66 : List Nat) ≠ [] := by
  refine ⟨by decide, by decide, by decide, by decide⟩

/-- The toy cipher used in `C2_wrong_password_returns_wrong_secret` is a
genuine block cipher: on 16-byte blocks it is length-preserving and its
own inverse, for every key. -/
theorem xorStreamE_selfInverse (k b : List Nat) (h : b.length = 16) :
    xorStreamE k (xorStreamE k b) = b ∧ (xorStreamE k b).length = 16 := by
  have hlen : ((k ++ List.replicate 16 0).take 16).length = 16 := by
    simp only [List.length_take, List.length_append, List.length_replicate]
    omega
  constructor
  · exact xorBytes_xorBytes_cancel b _ (by rw [h, hlen])
  · rw [xorStreamE, length_xorBytes, h, hlen]
    simp

/-! ## Claim C3: approving an unknown proposal id -/

/-- **C3 (counterexample).**  The claim says `approve(id)` on an id not
present in the registry *fails with `ProposalNotFound`*.  It does not:
`approveProposal` (walletconnect-real.ts lines 40-43) merely logs
`No pending proposal found for ID:` and returns normally — the outcome
is the non-throwing `notFoundNoop`, not an error surfaced to the caller.
(The other half of the claim holds: the state, and hence the sessions
map, is unchanged, so no Session is created.)  Concretely, approving id
`42` on an empty registry returns normally with the state untouched. -/
theorem C3_counterexample_approve_unknown_id_no_error :
    approveProposal (fun _ => .ok "topic-1") "eip155:1" "0xAb" 42
      ⟨[], []⟩ = (.notFoundNoop, ⟨[], []⟩) := by
  rfl

/-- **C3 (amended).**  For every transport, default chain, wallet
address and state, `approveProposal` on an id that is not in
`pendingProposals` returns normally as a silent no-op (`notFoundNoop`,
surfaced only via `console.error`) and leaves the entire state — in
particular the sessions map — unchanged, so no Session is created; it
does not fail with a `ProposalNotFound` error. -/
theorem C3_amended_approve_unknown_id_noop
    (approveTx : List (String × SessionNamespace) → Except String String)
    (defaultChain address : String) (proposalId : Nat) (st : RealManagerState)
    (h : jsMapGet st.pendingProposals proposalId = none) :
    approveProposal approveTx defaultChain address proposalId st
      = (.notFoundNoop, st) := by
  unfold approveProposal
  rw [h]

/-- Witness for the amended C3 at a concrete input: a one-proposal
registry queried for a different id. -/
theorem C3_amended_approve_unknown_id_noop_witness :
    jsMapGet ([(7, ⟨7, ⟨"peer", "d", "u", []⟩, [], none⟩)] :
        List (Nat × SessionProposalEvent)) 42 = none ∧
    approveProposal (fun _ => .ok "topic-1") "eip155:1" "0xAb" 42
      ⟨[(7, ⟨7, ⟨"peer", "d", "u", []⟩, [], none⟩)], []⟩
      = (.notFoundNoop, ⟨[(7, ⟨7, ⟨"peer", "d", "u", []⟩, [], none⟩)], []⟩) :=
  ⟨by decide,
   C3_amended_approve_unknown_id_noop (fun _ => .ok "topic-1") "eip155:1" "0xAb" 42
     ⟨[(7, ⟨7, ⟨"peer", "d", "u", []⟩, [], none⟩)], []⟩ (by decide)⟩

/-! ## Claim C4: address check on personal_sign / eth_sign -/

/-- **C4 (counterexample).**  The claim covers both cited handlers, but
`OpenSeaWalletConnectManager.onSessionRequest` (opensea-fixed lines
223-262) performs **no** address check: a `personal_sign` request whose
address parameter is present and differs (even after lowercasing) from
the wallet address is signed anyway and answered with a success
response carrying the signature — not rejected with `AddressMismatch`.
Same for its `eth_sign` case. -/
theorem C4_counterexample_opensea_signs_despite_mismatch :
    openSeaOnSessionRequest "0xaaaa"
      (fun m => "sig:" ++ m) (fun td => "typed:" ++ td)
      (fun tx => "hash:" ++ tx) (fun h => h)
      ⟨"personal_sign", ["hello", "0xbbbb"]⟩
      = .responded (.success (.str "sig:hello")) ∧
    jsTruthyStr (some "0xbbbb") = true ∧
    jsToLower "0xbbbb" ≠ jsToLower "0xaaaa" ∧
    openSeaOnSessionRequest "0xaaaa"
      (fun m => "sig:" ++ m) (fun td => "typed:" ++ td)
      (fun tx => "hash:" ++ tx) (fun h => h)
      ⟨"eth_sign", ["0xbbbb", "data"]⟩
      = .responded (.success (.str "sig:data")) := by
  refine ⟨by decide, by decide, by decide, by decide⟩

/-- **C4 (amended).**  In `RealWalletConnectManager.handleSessionRequest`
(variant 1, lines 380-404) the claim holds up to the error shape: a
`personal_sign` or `eth_sign` request whose address parameter is present
(truthy) and differs case-insensitively from the wallet address makes
the handler throw the `Address mismatch` error, which the outer catch
converts into an error response to the peer (with the generic payload
`-32601 / 'Method not found'`) — never a signature.  The
OpenSea-variant handler performs no such check (see the
counterexample). -/
theorem C4_amended_real_rejects_address_mismatch
    (isTestnet : Bool) (walletAddress : String)
    (signMessage signTransaction signTypedData : String → String)
    (message a : String)
    (ha : a ≠ "") (hdiff : jsToLower a ≠ jsToLower walletAddress) :
    realHandleSessionRequest isTestnet walletAddress
      signMessage signTransaction signTypedData
      ⟨"personal_sign", [message, a]⟩
      = .responded (.error (-32601) "Method not found") ∧
    realHandleSessionRequest isTestnet walletAddress
      signMessage signTransaction signTypedData
      ⟨"eth_sign", [a, message]⟩
      = .responded (.error (-32601) "Method not found") := by
  have htruthy : jsTruthyStr (some a) = true := by
    simp [jsTruthyStr, ha]
  have hb : (jsToLower a != jsToLower walletAddress) = true := bne_iff_ne.mpr hdiff
  constructor <;>
    simp [realHandleSessionRequest, realDispatch, htruthy, hb]

/-- Witness for the amended C4 at concrete inputs. -/
theorem C4_amended_real_rejects_address_mismatch_witness :
    ("0xB" : String) ≠ "" ∧
    jsToLower "0xB" ≠ jsToLower "0xA" ∧
    (realHandleSessionRequest false "0xA" id id id
        ⟨"personal_sign", ["msg", "0xB"]⟩
        = .responded (.error (-32601) "Method not found") ∧
      realHandleSessionRequest false "0xA" id id id
        ⟨"eth_sign", ["0xB", "msg"]⟩
        = .responded (.error (-32601) "Method not found")) :=
  ⟨by decide, by decide,
   C4_amended_real_rejects_address_mismatch false "0xA" id id id "msg" "0xB"
     (by decide) (by decide)⟩

/-! ## Claim C5: empty-proposal fallback namespace -/

/-- **C5 (counterexample).**  The claim says the fallback namespace for
an entirely empty proposal always carries chain id 1.  It does not: the
default chain depends on manager state.  In variant 1 with
`isTestnet = true` the fallback chain is `eip155:11155111` (Sepolia),
and in variant 2 with a selected chain (e.g. Polygon, id 137) it is
`eip155:137` — not chain 1. -/
theorem C5_counterexample_fallback_chain_not_always_1 :
    (buildApprovedNamespaces (defaultChainOfTestnet true) "0xAb" [] none).map
        (fun p => (p.1, p.2.chains))
      = [("eip155", ["eip155:11155111"])] ∧
    ("eip155:11155111" : String) ≠ "eip155:1" ∧
    (buildApprovedNamespaces (defaultChainOfCurrent (some 137)) "0xAb" [] none).map
        (fun p => (p.1, p.2.chains))
      = [("eip155", ["eip155:137"])] ∧
    ("eip155:137" : String) ≠ "eip155:1" := by
  refine ⟨by decide, by decide, by decide, by decide⟩

/-- **C5 (amended).**  For every default-chain string, wallet address,
and empty `NamespaceRequest` (`requiredNamespaces` an empty object and
`optionalNamespaces` absent or an empty object), the approved namespace
set is exactly one entry, under the prefix `eip155`, equal to the
permissive fallback: its chain list is the single *state-dependent
default chain* — which is `eip155:1` precisely in the mainnet/default
configurations (`isTestnet = false` in variant 1; no chain or chain id
1 selected in variant 2) — its method list contains the account-query,
message-signing, typed-data-signing and transaction-signing/sending
methods, and its events are exactly `chainChanged` and
`accountsChanged`. -/
theorem C5_amended_empty_proposal_fallback
    (defaultChain address : String) (optional : Option NamespaceMap)
    (hopt : optional = none ∨ optional = some []) :
    buildApprovedNamespaces defaultChain address [] optional
      = [("eip155", openSeaFallbackNs defaultChain address)] ∧
    (openSeaFallbackNs defaultChain address).chains = [defaultChain] ∧
    (openSeaFallbackNs defaultChain address).accounts = [defaultChain ++ ":" ++ address] ∧
    defaultChainOfTestnet false = "eip155:1" ∧
    defaultChainOfCurrent none = "eip155:1" ∧
    defaultChainOfCurrent (some 1) = "eip155:1" ∧
    "eth_accounts" ∈ openSeaFallbackMethods ∧
    "eth_requestAccounts" ∈ openSeaFallbackMethods ∧
    "personal_sign" ∈ openSeaFallbackMethods ∧
    "eth_sign" ∈ openSeaFallbackMethods ∧
    "eth_signTypedData" ∈ openSeaFallbackMethods ∧
    "eth_signTypedData_v4" ∈ openSeaFallbackMethods ∧
    "eth_sendTransaction" ∈ openSeaFallbackMethods ∧
    "eth_signTransaction" ∈ openSeaFallbackMethods ∧
    (openSeaFallbackNs defaultChain address).events
      = ["chainChanged", "accountsChanged"] := by
  rcases hopt with h | h <;> subst h <;>
    exact ⟨rfl, rfl, rfl, by decide, by decide, by decide, by decide, by decide,
      by decide, by decide, by decide, by decide, by decide, by decide, rfl⟩

/-- Witness for the amended C5 at concrete inputs (variant 1, mainnet). -/
theorem C5_amended_empty_proposal_fallback_witness :
    ((none : Option NamespaceMap) = none ∨ (none : Option NamespaceMap) = some []) ∧
    buildApprovedNamespaces (defaultChainOfTestnet false) "0xAb" [] none
      = [("eip155", openSeaFallbackNs "eip155:1" "0xAb")] :=
  ⟨Or.inl rfl,
   (C5_amended_empty_proposal_fallback (defaultChainOfTestnet false) "0xAb" none
     (Or.inl rfl)).1⟩

/-! ## Claim C6: required namespaces -/

/-- **C6 (counterexample).**  The claim quantifies over *every*
namespace prefix present in `required`, but `processSessionProposal`
only ever reads `requiredNamespaces.eip155` (lines 202-216): a required
namespace under any other prefix is dropped entirely.  Concretely, a
proposal requiring only a `cosmos` namespace produces an approved set
with *no* `cosmos` entry at all — the required chains, methods and
events are not reflected, and no `cosmos:...` account is created; the
output is just the last-resort `eip155` default. -/
theorem C6_counterexample_non_eip155_required_dropped :
    jsGet (buildApprovedNamespaces "eip155:1" "0xAb"
        [("cosmos", ⟨some ["cosmos:cosmoshub-4"], some ["cosmos_signDirect"],
          some []⟩)] none) "cosmos" = none ∧
    buildApprovedNamespaces "eip155:1" "0xAb"
        [("cosmos", ⟨some ["cosmos:cosmoshub-4"], some ["cosmos_signDirect"],
          some []⟩)] none
      = [("eip155", lastResortNs "eip155:1" "0xAb")] := by
  refine ⟨by decide, by decide⟩

/-- **C6 (amended).**  For the `eip155` prefix — the only one the code
handles — the claim holds verbatim: when `required.eip155` declares
chains, methods and events and there are no optional namespaces, the
approved set is exactly one `eip155` entry whose chain, method and event
lists are exactly the required ones (kept verbatim) and whose accounts
are exactly one `chain:address` entry per declared chain, in order; in
particular the number of accounts equals the number of required chains,
so two required chains yield exactly two accounts.  Required prefixes
other than `eip155` are ignored (see the counterexample). -/
theorem C6_amended_required_eip155_exact
    (defaultChain address : String) (cs ms es : List String) :
    buildApprovedNamespaces defaultChain address
        [("eip155", ⟨some cs, some ms, some es⟩)] none
      = [("eip155", ⟨cs.map (acct address), ms, es, cs⟩)] ∧
    (cs.map (acct address)).length = cs.length ∧
    ∀ c ∈ cs, (c ++ ":" ++ address) ∈ cs.map (acct address) := by
  refine ⟨rfl, List.length_map cs _, fun c hc => ?_⟩
  exact List.mem_map.mpr ⟨c, hc, rfl⟩

/-- Witness for the amended C6: the spec's own two-chain example —
`required.eip155.chains = ["eip155:1", "eip155:137"]`, no optional
namespaces — yields exactly two accounts, one per chain. -/
theorem C6_amended_required_eip155_exact_witness :
    buildApprovedNamespaces "eip155:1" "0xAb"
        [("eip155", ⟨some ["eip155:1", "eip155:137"], some ["personal_sign"],
          some ["chainChanged"]⟩)] none
      = [("eip155", ⟨["eip155:1:0xAb", "eip155:137:0xAb"], ["personal_sign"],
          ["chainChanged"], ["eip155:1", "eip155:137"]⟩)] ∧
    (["eip155:1", "eip155:137"].map (acct "0xAb")).length = 2 ∧
    ("eip155:137" ++ ":" ++ "0xAb")
      ∈ ["eip155:1", "eip155:137"].map (acct "0xAb") :=
  ⟨(C6_amended_required_eip155_exact "eip155:1" "0xAb"
      ["eip155:1", "eip155:137"] ["personal_sign"] ["chainChanged"]).1,
   (C6_amended_required_eip155_exact "eip155:1" "0xAb"
      ["eip155:1", "eip155:137"] ["personal_sign"] ["chainChanged"]).2.1,
   (C6_amended_required_eip155_exact "eip155:1" "0xAb"
      ["eip155:1", "eip155:137"] ["personal_sign"] ["chainChanged"]).2.2
     "eip155:137" (by decide)⟩

/-! ## Claim C7: optional-namespace merge -/

/-- Membership in the dedup worker: an element is kept iff it occurs in
the input and was not already seen. -/
theorem mem_jsSetDedupGo (l : List String) :
    ∀ (seen : List String) (x : String),
      x ∈ jsSetDedupGo seen l ↔ x ∈ l ∧ x ∉ seen := by
  induction l with
  | nil => intro seen x; simp [jsSetDedupGo]
  | cons y ys ih =>
    intro seen x
    by_cases h : seen.contains y = true
    · have hy : y ∈ seen := by simpa using h
      rw [jsSetDedupGo, if_pos h, ih]
      simp only [List.mem_cons]
      constructor
      · rintro ⟨hx, hns⟩
        exact ⟨Or.inr hx, hns⟩
      · rintro ⟨rfl | hx, hns⟩
        · exact absurd hy hns
        · exact ⟨hx, hns⟩
    · have hy : y ∉ seen := by simpa using h
      rw [jsSetDedupGo, if_neg h]
      simp only [List.mem_cons, ih]
      constructor
      · rintro (rfl | ⟨hx, hns⟩)
        · exact ⟨Or.inl rfl, hy⟩
        · refine ⟨Or.inr hx, fun hc => hns (Or.inr hc)⟩
      · rintro ⟨rfl | hx, hns⟩
        · exact Or.inl rfl
        · by_cases hxy : x = y
          · exact Or.inl hxy
          · refine Or.inr ⟨hx, ?_⟩
            simp only [List.mem_cons, not_or]
            exact ⟨hxy, hns⟩

/-- The dedup worker never emits duplicates. -/
theorem nodup_jsSetDedupGo (l : List String) :
    ∀ seen, (jsSetDedupGo seen l).Nodup := by
  induction l with
  | nil => intro seen; simp [jsSetDedupGo]
  | cons y ys ih =>
    intro seen
    by_cases h : seen.contains y = true
    · rw [jsSetDedupGo, if_pos h]
      exact ih seen
    · rw [jsSetDedupGo, if_neg h]
      refine List.nodup_cons.mpr ⟨fun hy => ?_, ih (y :: seen)⟩
      exact ((mem_jsSetDedupGo ys (y :: seen) y).mp hy).2 (List.mem_cons_self y seen)

/-- `[...new Set(xs)]` has no duplicates. -/
theorem nodup_jsSetDedup (l : List String) : (jsSetDedup l).Nodup :=
  nodup_jsSetDedupGo l []

/-- `[...new Set(xs)]` has exactly the members of `xs`. -/
theorem mem_jsSetDedup (l : List String) (x : String) :
    x ∈ jsSetDedup l ↔ x ∈ l := by
  rw [jsSetDedup, mem_jsSetDedupGo]
  simp

/-- **C7 (counterexample).**  The claim says the approved entry always
contains the *union* of the optional methods/events with the required
ones.  It does not: the merge at walletconnect-real.ts lines 241-246 is
guarded by `if (additionalAccounts.length > 0)`, so when every optional
chain is already covered by an account the optional methods and events
are dropped entirely.  Concretely, with `required.eip155 =
{chains: ["eip155:1"], methods: ["personal_sign"], events: []}` and
`optional.eip155 = {chains: ["eip155:1"], methods: ["eth_sign"],
events: []}`, the approved methods are just `["personal_sign"]` — the
optional method `eth_sign` (and hence the union) is missing. -/
theorem C7_counterexample_covered_optional_dropped :
    buildApprovedNamespaces "eip155:1" "0xAb"
        [("eip155", ⟨some ["eip155:1"], some ["personal_sign"], some []⟩)]
        (some [("eip155", ⟨some ["eip155:1"], some ["eth_sign"], some []⟩)])
      = [("eip155", ⟨["eip155:1:0xAb"], ["personal_sign"], [], ["eip155:1"]⟩)] ∧
    ∀ p ∈ buildApprovedNamespaces "eip155:1" "0xAb"
        [("eip155", ⟨some ["eip155:1"], some ["personal_sign"], some []⟩)]
        (some [("eip155", ⟨some ["eip155:1"], some ["eth_sign"], some []⟩)]),
      "eth_sign" ∉ p.2.methods := by
  refine ⟨by decide, by decide⟩

/-- **C7 (amended).**  When both `required.eip155` and
`optional.eip155` are present and at least one optional chain is *not*
already covered by a required account, the merge happens exactly as
claimed: the approved entry keeps the required accounts followed by one
account per uncovered optional chain, and its method, event and chain
lists are the order-preserving deduplicated unions of required and
optional (every required or optional method/event/chain is present, and
the merged lists contain no duplicates).  When instead every optional
chain is already covered, the optional methods/events/chains are
ignored entirely (see the counterexample). -/
theorem C7_amended_optional_merge
    (defaultChain address : String) (rcs rms res ocs oms oes : List String)
    (hne : ocs.filter
        (fun c => !((rcs.map (acct address)).contains (acct address c))) ≠ []) :
    buildApprovedNamespaces defaultChain address
        [("eip155", ⟨some rcs, some rms, some res⟩)]
        (some [("eip155", ⟨some ocs, some oms, some oes⟩)])
      = [("eip155",
          ⟨rcs.map (acct address) ++
              (ocs.filter (fun c =>
                !((rcs.map (acct address)).contains (acct address c)))).map (acct address),
            jsSetDedup (rms ++ oms), jsSetDedup (res ++ oes),
            jsSetDedup (rcs ++ ocs)⟩)] ∧
    (jsSetDedup (rms ++ oms)).Nodup ∧
    (jsSetDedup (res ++ oes)).Nodup ∧
    (jsSetDedup (rcs ++ ocs)).Nodup ∧
    (∀ x ∈ rms ++ oms, x ∈ jsSetDedup (rms ++ oms)) ∧
    (∀ x ∈ res ++ oes, x ∈ jsSetDedup (res ++ oes)) ∧
    (∀ x ∈ rcs ++ ocs, x ∈ jsSetDedup (rcs ++ ocs)) := by
  have hcond : ¬ ∀ a ∈ ocs, ∃ x ∈ rcs, acct address x = acct address a := by
    intro hall
    apply hne
    rw [List.filter_eq_nil_iff]
    intro a ha
    rcases hall a ha with ⟨x, hx, heq⟩
    simpa [List.mem_map] using ⟨x, hx, heq⟩
  refine ⟨?_, nodup_jsSetDedup _, nodup_jsSetDedup _, nodup_jsSetDedup _,
    fun x hx => (mem_jsSetDedup _ x).mpr hx,
    fun x hx => (mem_jsSetDedup _ x).mpr hx,
    fun x hx => (mem_jsSetDedup _ x).mpr hx⟩
  simp [buildApprovedNamespaces, jsGet, hcond]

/-- Witness for the amended C7: one uncovered optional chain
(`eip155:137`), whose account is appended while methods and events are
union-merged and deduplicated. -/
theorem C7_amended_optional_merge_witness :
    (["eip155:137"].filter
        (fun c => !((["eip155:1"].map (acct "0xAb")).contains (acct "0xAb" c))) ≠ []) ∧
    buildApprovedNamespaces "eip155:1" "0xAb"
        [("eip155", ⟨some ["eip155:1"], some ["personal_sign"], some []⟩)]
        (some [("eip155", ⟨some ["eip155:137"], some ["personal_sign", "eth_sign"],
          some []⟩)])
      = [("eip155",
          ⟨["eip155:1"].map (acct "0xAb") ++
              (["eip155:137"].filter (fun c =>
                !((["eip155:1"].map (acct "0xAb")).contains
                  (acct "0xAb" c)))).map (acct "0xAb"),
            jsSetDedup (["personal_sign"] ++ ["personal_sign", "eth_sign"]),
            jsSetDedup ([] ++ []), jsSetDedup (["eip155:1"] ++ ["eip155:137"])⟩)] :=
  ⟨by decide,
   (C7_amended_optional_merge "eip155:1" "0xAb" ["eip155:1"] ["personal_sign"] []
     ["eip155:137"] ["personal_sign", "eth_sign"] [] (by decide)).1⟩

/-! ## Claim C8: unsupported methods -/

/-- **C8 (counterexample).**  The claim says an unsupported method is
answered with an explicit "method not supported" *error* response and
never with a success result.  In
`RealWalletConnectManager.handleSessionRequest` the `default` case (lines
482-484) instead sets `result = null` and the handler answers with a
normal *success* response carrying `null` — not an error. -/
theorem C8_counterexample_unsupported_gets_success_null :
    realHandleSessionRequest false "0xAb" id id id ⟨"eth_newFilter", []⟩
      = .responded (.success .nul) ∧
    ∀ (code : Int) (msg : String),
      HandlerOutcome.responded (.success .nul)
        ≠ .responded (.error code msg) := by
  refine ⟨by decide, fun code msg hcon => ?_⟩
  simp at hcon

/-- **C8 (amended).**  A request whose method has no `case` label is
never silently ignored by the *dispatch* — but neither variant behaves
as claimed: `RealWalletConnectManager.handleSessionRequest` answers it
with a *success* response with `null` result (default case, lines
482-484), and `OpenSeaWalletConnectManager.onSessionRequest` throws
`Unsupported method: ...` (line 331), whose `catch` block then crashes
on the out-of-scope `request` identifier before the error response can
be sent, so its peer receives *no* response at all. -/
theorem C8_amended_unsupported_method
    (isTestnet : Bool) (wa wa2 : String)
    (sM sT sTD sM2 sTD2 sTx hHex : String → String)
    (method : String) (params : List String)
    (h1 : method ∉ realHandledMethods) (h2 : method ∉ openSeaHandledMethods) :
    realHandleSessionRequest isTestnet wa sM sT sTD ⟨method, params⟩
      = .responded (.success .nul) ∧
    openSeaOnSessionRequest wa2 sM2 sTD2 sTx hHex ⟨method, params⟩
      = .crashed := by
  simp only [realHandledMethods, openSeaHandledMethods, List.mem_cons,
    List.not_mem_nil, or_false, not_or] at h1 h2
  constructor
  · simp [realHandleSessionRequest, realDispatch, h1]
  · simp [openSeaOnSessionRequest, openSeaDispatch, h2]

/-- Witness for the amended C8 at a concrete unsupported method. -/
theorem C8_amended_unsupported_method_witness :
    ("eth_newFilter" : String) ∉ realHandledMethods ∧
    ("eth_newFilter" : String) ∉ openSeaHandledMethods ∧
    (realHandleSessionRequest false "0xAb" id id id ⟨"eth_newFilter", []⟩
        = .responded (.success .nul) ∧
      openSeaOnSessionRequest "0xAb" id id id id ⟨"eth_newFilter", []⟩
        = .crashed) :=
  ⟨by decide, by decide,
   C8_amended_unsupported_method false "0xAb" "0xAb" id id id id id id id
     "eth_newFilter" [] (by decide) (by decide)⟩

/-! ## Claim C9: send vs. sign-only transaction variants -/

/-- **C9 (counterexample).**  The claim says the "send" variant submits
the signed transaction to the network and returns the transaction hash.
In `RealWalletConnectManager.handleSessionRequest`, `eth_sendTransaction`
and `eth_signTransaction` share one `case` (lines 406-410) whose body is
only `await this.wallet.signTransaction(transaction)` — nothing is ever
submitted and no hash is produced: the "send" response is the signed
payload, byte-identical to the "sign-only" response.  (Only the
OpenSea-variant handler actually submits; see the amended theorem.) -/
theorem C9_counterexample_send_returns_signed_payload :
    realHandleSessionRequest false "0xAb" (fun m => "sig:" ++ m)
      (fun tx => "signed:" ++ tx) (fun td => "typed:" ++ td)
      ⟨"eth_sendTransaction", ["tx1"]⟩
      = .responded (.success (.str "signed:tx1")) ∧
    realHandleSessionRequest false "0xAb" (fun m => "sig:" ++ m)
      (fun tx => "signed:" ++ tx) (fun td => "typed:" ++ td)
      ⟨"eth_sendTransaction", ["tx1"]⟩
      = realHandleSessionRequest false "0xAb" (fun m => "sig:" ++ m)
          (fun tx => "signed:" ++ tx) (fun td => "typed:" ++ td)
          ⟨"eth_signTransaction", ["tx1"]⟩ := by
  refine ⟨by decide, by decide⟩

/-- **C9 (amended).**  For every transaction payload:
`RealWalletConnectManager` answers *both* `eth_sendTransaction` and
`eth_signTransaction` with the signed transaction payload
(`wallet.signTransaction`) and never submits — its embedding takes no
network-submission capability at all — while
`OpenSeaWalletConnectManager` answers `eth_sendTransaction` with the
hash of the submitted transaction (`wallet.sendTransaction(tx)` then
`sentTx.hash`, lines 281-285) and has no `eth_signTransaction` case. -/
theorem C9_amended_send_vs_sign_variants
    (isTestnet : Bool) (wa wa2 : String)
    (sM sT sTD sM2 sTD2 sTxHash hHex : String → String) (tx : String) :
    realHandleSessionRequest isTestnet wa sM sT sTD
        ⟨"eth_sendTransaction", [tx]⟩
      = .responded (.success (.str (sT tx))) ∧
    realHandleSessionRequest isTestnet wa sM sT sTD
        ⟨"eth_signTransaction", [tx]⟩
      = .responded (.success (.str (sT tx))) ∧
    openSeaOnSessionRequest wa2 sM2 sTD2 sTxHash hHex
        ⟨"eth_sendTransaction", [tx]⟩
      = .responded (.success (.str (sTxHash tx))) :=
  ⟨rfl, rfl, rfl⟩

/-! ## Claim C10: sessions are keyed by their own topic -/

/-- `Map.set` with a value whose topic equals the key preserves the
key-equals-topic invariant. -/
theorem SessionsKeyedByTopic_jsMapSet (m : List (String × WalletConnectSession))
    (k : String) (v : WalletConnectSession)
    (h : SessionsKeyedByTopic m) (hv : v.topic = k) :
    SessionsKeyedByTopic (jsMapSet m k v) := by
  intro p hp
  rw [jsMapSet] at hp
  by_cases hhas : jsMapHas m k = true
  · rw [if_pos hhas] at hp
    rcases List.mem_map.mp hp with ⟨q, hq, rfl⟩
    by_cases hqk : q.1 = k
    · simp only [hqk, if_pos rfl]
      exact hv
    · simp only [if_neg hqk]
      exact h q hq
  · rw [if_neg hhas] at hp
    rcases List.mem_append.mp hp with hq | hq
    · exact h p hq
    · rcases List.mem_singleton.mp hq with rfl
      exact hv

/-- `Map.delete` preserves the invariant. -/
theorem SessionsKeyedByTopic_jsMapDelete (m : List (String × WalletConnectSession))
    (k : String) (h : SessionsKeyedByTopic m) :
    SessionsKeyedByTopic (jsMapDelete m k) :=
  fun p hp => h p (List.mem_of_mem_filter hp)

/-- A fold whose step preserves the invariant preserves it. -/
theorem SessionsKeyedByTopic_foldl
    (f : List (String × WalletConnectSession) → TransportSession →
      List (String × WalletConnectSession))
    (hf : ∀ acc s, SessionsKeyedByTopic acc → SessionsKeyedByTopic (f acc s))
    (l : List TransportSession) (m : List (String × WalletConnectSession))
    (h : SessionsKeyedByTopic m) :
    SessionsKeyedByTopic (l.foldl f m) := by
  induction l generalizing m with
  | nil => exact h
  | cons s ss ih => exact ih (f m s) (hf m s h)

/-- Every single sessions-map operation performed anywhere in the three
manager variants preserves the key-equals-topic invariant. -/
theorem SessionsKeyedByTopic_applySessionOp
    (m : List (String × WalletConnectSession)) (op : SessionOp)
    (h : SessionsKeyedByTopic m) :
    SessionsKeyedByTopic (applySessionOp m op) := by
  cases op with
  | connectUri uri =>
    rw [applySessionOp]
    by_cases hc : (jsStartsWith uri "wc:" &&
        ((uri.splitOn "@").length = 2 : Bool)) = true
    · rw [if_pos hc]
      exact SessionsKeyedByTopic_jsMapSet _ _ _ h rfl
    · rw [if_neg hc]
      exact h
  | storeApproved topic meta =>
    exact SessionsKeyedByTopic_jsMapSet _ _ _ h rfl
  | cacheFill topic transport =>
    rw [applySessionOp]
    by_cases hc : jsMapHas m topic = true
    · rw [if_pos hc]
      exact h
    · rw [if_neg hc]
      cases hfind : transport.find? (fun s => s.topic = topic) with
      | none => exact h
      | some s =>
        have hs : s.topic = topic := by
          have := List.find?_some hfind
          simpa using this
        exact SessionsKeyedByTopic_jsMapSet _ _ _ h hs
  | syncSessions transport =>
    refine SessionsKeyedByTopic_foldl _ ?_ transport m h
    intro acc s hacc
    by_cases hc : jsMapHas acc s.topic = true
    · simpa [hc] using hacc
    · rw [if_neg hc]
      exact SessionsKeyedByTopic_jsMapSet _ _ _ hacc rfl
  | restoreAll transport =>
    refine SessionsKeyedByTopic_foldl _ ?_ transport m h
    intro acc s hacc
    exact SessionsKeyedByTopic_jsMapSet _ _ _ hacc rfl
  | sessionDelete topic =>
    exact SessionsKeyedByTopic_jsMapDelete _ _ h

/-- **C10 (confirmed).**  Starting from the empty sessions map, after
*any* sequence of the session-map operations occurring in the three
manager variants (URI-connect, approved-session store, request-time
cache fill, transport sync, initialize-restore, delete/expire/
disconnect), every entry of the map is stored under its own topic, and
consequently `getSessions` (`Array.from(this.sessions.values())`) never
returns a session whose `topic` differs from the key it is stored
under. -/
theorem C10_sessions_keyed_by_topic (ops : List SessionOp) :
    SessionsKeyedByTopic (ops.foldl applySessionOp []) ∧
    ∀ s ∈ jsMapValues (ops.foldl applySessionOp []),
      (s.topic, s) ∈ ops.foldl applySessionOp [] := by
  have hall : ∀ (l : List SessionOp) (m : List (String × WalletConnectSession)),
      SessionsKeyedByTopic m → SessionsKeyedByTopic (l.foldl applySessionOp m) := by
    intro l
    induction l with
    | nil => exact fun m h => h
    | cons op rest ih =>
      exact fun m h => ih _ (SessionsKeyedByTopic_applySessionOp m op h)
  have hinv : SessionsKeyedByTopic (ops.foldl applySessionOp []) :=
    hall ops [] (fun p hp => absurd hp (List.not_mem_nil p))
  refine ⟨hinv, fun s hs => ?_⟩
  rcases List.mem_map.mp hs with ⟨p, hp, rfl⟩
  have hpt := hinv p hp
  rw [hpt]
  simpa using hp

/-- Witness for C10: after storing one approved session, the stored
record's topic equals its key. -/
theorem C10_sessions_keyed_by_topic_witness :
    (({ topic := "t1", peerMetadata := ⟨"peer", "d", "u", []⟩ } :
        WalletConnectSession).topic = "t1") :=
  (C10_sessions_keyed_by_topic
      [.storeApproved "t1" ⟨"peer", "d", "u", []⟩]).1
    ("t1", ⟨"t1", ⟨"peer", "d", "u", []⟩⟩) (by decide)

end MyAgentWallet
